import Mathlib

/-!
Shallow embedding of the deepseek-ocr-proxy request pipeline
(`src/lib/ocr.ts`, `src/types.ts`, `src/endpoints/ocr.ts`, `src/index.ts`).

JavaScript strings are modelled by Lean `String`; all string manipulation
is implemented structurally over `List Char` so that every definition
evaluates by kernel reduction.  Machine numbers are `Nat`/`Int`.  Thrown
exceptions are modelled by `Except`: `OcrError` instances become the
`.ocr` constructor, any other thrown value (e.g. a JSON `SyntaxError`
from the body reader, or an `InvalidCharacterError` from `atob`) becomes
the `.generic` constructor, which only the generic handler catches.
Effects (the `fetch` call, `performance.now`) are passed in as explicit
arguments.
-/

/-- Characters treated as whitespace by the JavaScript `\s` class and
`String.prototype.trim` (ASCII range plus NBSP; the exotic Unicode
spaces are irrelevant to this code base). -/
def jsWhitespaceB (c : Char) : Bool :=
  c = ' ' || c = '\t' || c = '\n' || c = '\r' || c = '\x0b' || c = '\x0c' || c = '\xa0'

/-- JavaScript `String.prototype.trim`. -/
def jsTrim (s : String) : String :=
  String.mk (((s.data.dropWhile jsWhitespaceB).reverse.dropWhile jsWhitespaceB).reverse)

/-- JavaScript `String.prototype.toLowerCase` (ASCII; extensions and MIME
types in this code base are ASCII). -/
def strToLower (s : String) : String :=
  String.mk (s.data.map Char.toLower)

/-- Split a character list at every separator character (JavaScript
`String.prototype.split` with a single-character separator). -/
def splitOnSep (p : Char → Bool) : List Char → List (List Char)
  | [] => [[]]
  | c :: rest =>
    let r := splitOnSep p rest
    if p c then [] :: r
    else
      match r with
      | [] => [[c]]
      | h :: t => (c :: h) :: t

/-- `sub` occurs as a contiguous run inside `l`. -/
def listIncludes (sub : List Char) : List Char → Bool
  | [] => sub.isPrefixOf ([] : List Char)
  | c :: t => sub.isPrefixOf (c :: t) || listIncludes sub t

/-- JavaScript `String.prototype.includes`. -/
def strIncludes (s sub : String) : Bool :=
  listIncludes sub.data s.data

/-- JavaScript `a || b` for an optional string `a`: both `undefined`
and the empty string are falsy. -/
def jsOrStr (a : Option String) (b : String) : String :=
  match a with
  | none => b
  | some s => if s = "" then b else s

/-- JavaScript `Array.prototype.join`. -/
def joinList (sep : String) : List String → String
  | [] => ""
  | [x] => x
  | x :: rest => x ++ sep ++ joinList sep rest

/-- The six task identifiers of `TaskTypeSchema` (src/types.ts). -/
inductive TaskType where
  | document_markdown
  | general_ocr
  | plaintext_ocr
  | chart_parse
  | image_caption
  | text_localization
deriving DecidableEq, Repr

/-- `TaskTypeSchema.safeParse` on a string (src/types.ts). -/
def taskTypeOfString : String → Option TaskType
  | "document_markdown" => some .document_markdown
  | "general_ocr" => some .general_ocr
  | "plaintext_ocr" => some .plaintext_ocr
  | "chart_parse" => some .chart_parse
  | "image_caption" => some .image_caption
  | "text_localization" => some .text_localization
  | _ => none

/-- The string value carried by a `TaskType` enum member. -/
def taskTypeToString : TaskType → String
  | .document_markdown => "document_markdown"
  | .general_ocr => "general_ocr"
  | .plaintext_ocr => "plaintext_ocr"
  | .chart_parse => "chart_parse"
  | .image_caption => "image_caption"
  | .text_localization => "text_localization"

/-- `TaskConfig` (src/types.ts); the optional booleans default to
`false`, matching JavaScript truthiness of an absent field. -/
structure TaskConfig where
  id : TaskType
  defaultPrompt : String
  requiresTargetText : Bool := false
  allowCustomPrompt : Bool := false
deriving DecidableEq, Repr

/-- `TASK_CONFIGS` (src/lib/ocr.ts). -/
def TASK_CONFIGS : TaskType → TaskConfig
  | .document_markdown =>
    { id := .document_markdown
      defaultPrompt := "<image>\n<|grounding|>Convert the document to markdown." }
  | .general_ocr =>
    { id := .general_ocr
      defaultPrompt := "<image>\n<|grounding|>OCR this image." }
  | .plaintext_ocr =>
    { id := .plaintext_ocr
      defaultPrompt := "<image>\nFree OCR." }
  | .chart_parse =>
    { id := .chart_parse
      defaultPrompt := "<image>\nParse the figure." }
  | .image_caption =>
    { id := .image_caption
      defaultPrompt := "<image>\nDescribe this image in detail." }
  | .text_localization =>
    { id := .text_localization
      defaultPrompt := "<image>\nLocate <|ref|>\x7b\x7btarget\x7d\x7d<|/ref|> in the image."
      requiresTargetText := true
      allowCustomPrompt := true }

/-- The standard base64 alphabet used by `btoa`/`atob`. -/
def b64Alphabet : List Char :=
  "ABCDEFGHIJKLMNOPQRSTUVWXYZabcdefghijklmnopqrstuvwxyz0123456789+/".data

/-- The base64 digit for a sextet value (values are always `< 64` at
use sites; the default is immaterial). -/
def b64Char (i : Nat) : Char :=
  b64Alphabet.getD i 'A'

def sextOfAux (c : Char) : List Char → Nat → Option Nat
  | [], _ => none
  | x :: rest, i => if x = c then some i else sextOfAux c rest (i + 1)

/-- Sextet value of a base64 digit (`none` for a character outside the
alphabet, which makes `atob` throw). -/
def sextOf (c : Char) : Option Nat :=
  sextOfAux c b64Alphabet 0

/-- Standard base64 encoding of a byte sequence, as produced by `btoa`
applied to a binary string: three bytes become four digits, with `=`
padding for a trailing group of one or two bytes. -/
def encodeB64Chars : List Nat → List Char
  | [] => []
  | [a] =>
    [b64Char (a / 4), b64Char (a % 4 * 16), '=', '=']
  | [a, b] =>
    [b64Char (a / 4), b64Char (a % 4 * 16 + b / 16), b64Char (b % 16 * 4), '=']
  | a :: b :: c :: rest =>
    b64Char (a / 4) :: b64Char (a % 4 * 16 + b / 16) ::
      b64Char (b % 16 * 4 + c / 64) :: b64Char (c % 64) :: encodeB64Chars rest

/-- `atob` on a whitespace-free input (WHATWG forgiving-base64 restricted
to inputs where `=` occurs only as canonical trailing padding): `none`
models the thrown `InvalidCharacterError`.  Leftover bits of a final
partial group are discarded, as the WHATWG algorithm does. -/
def decodeB64Groups : List Char → Option (List Nat)
  | [] => some []
  | [_] => none
  | [c1, c2] =>
    match sextOf c1, sextOf c2 with
    | some s1, some s2 => some [s1 * 4 + s2 / 16]
    | _, _ => none
  | [c1, c2, c3] =>
    match sextOf c1, sextOf c2, sextOf c3 with
    | some s1, some s2, some s3 => some [s1 * 4 + s2 / 16, s2 % 16 * 16 + s3 / 4]
    | _, _, _ => none
  | c1 :: c2 :: c3 :: c4 :: rest =>
    match sextOf c1, sextOf c2 with
    | some s1, some s2 =>
      if c3 = '=' then
        if c4 = '=' && rest.isEmpty then some [s1 * 4 + s2 / 16] else none
      else
        match sextOf c3 with
        | some s3 =>
          if c4 = '=' then
            if rest.isEmpty then some [s1 * 4 + s2 / 16, s2 % 16 * 16 + s3 / 4] else none
          else
            match sextOf c4 with
            | some s4 =>
              (decodeB64Groups rest).map
                (fun t => (s1 * 4 + s2 / 16) :: (s2 % 16 * 16 + s3 / 4) ::
                  (s3 % 4 * 64 + s4) :: t)
            | none => none
        | none => none
    | _, _ => none

/-- `fileToBase64` (src/lib/ocr.ts): builds the binary string from the
file's bytes (the 0x8000-sized chunks concatenate to the same string)
and applies `btoa`. -/
def fileToBase64 (content : List Nat) : String :=
  String.mk (encodeB64Chars content)

/-- `base64ToUint8Array` (src/lib/ocr.ts): strips an optional data-URI
prefix (everything up to the last comma) and all whitespace, then
decodes with `atob`; `none` models the `InvalidCharacterError` thrown on
malformed input. -/
def base64ToUint8Array (base64 : String) : Option (List Nat) :=
  let stage1 :=
    if strIncludes base64 "," then
      ((splitOnSep (fun c => c = ',') base64.data).getLast?).getD base64.data
    else base64.data
  let cleaned := stage1.filter (fun c => !jsWhitespaceB c)
  decodeB64Groups cleaned

/-- A JavaScript `File`: name, declared MIME type (possibly empty) and
byte content; `size` is the byte length. -/
structure FileV where
  name : String
  type : String
  content : List Nat
deriving DecidableEq, Repr

def FileV.size (f : FileV) : Nat :=
  f.content.length

/-- A multipart form field value: a text field or an uploaded file. -/
inductive FormVal where
  | str (s : String)
  | file (f : FileV)
deriving DecidableEq, Repr

/-- A field of the body returned by `c.req.parseBody()`: absent, a
single value, or an array of values (repeated field). -/
inductive FieldVal where
  | undef
  | single (v : FormVal)
  | arr (vs : List FormVal)
deriving DecidableEq, Repr

/-- `first` (src/lib/ocr.ts): first element of an array value,
the value itself otherwise. -/
def first : FieldVal → Option FormVal
  | .undef => none
  | .single v => some v
  | .arr vs => vs.head?

/-- The multipart body fields read by `parseMultipart`. -/
structure MultipartBody where
  image : FieldVal
  prompt : FieldVal
  text : FieldVal
  taskType : FieldVal
deriving DecidableEq, Repr

/-- A field of the raw JSON body as seen by the zod schema: absent,
a string, or a value of any other JSON type. -/
inductive JField where
  | absent
  | str (s : String)
  | other
deriving DecidableEq, Repr

/-- The raw JSON body of a request (result of `c.req.json()`). -/
structure JsonRaw where
  image : JField
  filename : JField
  prompt : JField
  text : JField
  taskType : JField
deriving DecidableEq, Repr

/-- The validated JSON payload produced by a successful
`JsonRequestSchema.extend({taskType: TaskTypeSchema.optional()}).safeParse`. -/
structure ParsedJson where
  image : String
  filename : Option String
  prompt : Option String
  text : Option String
  taskType : Option TaskType
deriving DecidableEq, Repr

/-- `ParsedInput` (src/types.ts). -/
structure ParsedInput where
  file : FileV
  filename : String
  taskType : TaskType
  customPrompt : Option String
  targetText : Option String
deriving DecidableEq, Repr

/-- An `OcrError` value (src/lib/ocr.ts): status, code, message and
optional details. -/
structure OcrErrorV where
  status : Nat
  code : String
  message : String
  details : Option String
deriving DecidableEq, Repr

/-- A thrown value: an `OcrError`, or any other exception (JSON
`SyntaxError` from the body reader, `InvalidCharacterError` from
`atob`, …), which only the generic handler recognizes. -/
inductive Err where
  | ocr (e : OcrErrorV)
  | generic
deriving DecidableEq, Repr

/-- The environment bindings (src/types.ts).  All values are optional
strings; the code guards each with JavaScript truthiness. -/
structure Env where
  SILICONFLOW_API_KEY : Option String
  SILICONFLOW_BASE_URL : Option String
  SILICONFLOW_MODEL_ID : Option String
  MAX_FILE_SIZE : Option String
  SUPPORTED_FORMATS : Option String
deriving DecidableEq, Repr

/-- `normalizeString` (src/lib/ocr.ts) on a value already known to be a
string or absent (the JSON path). -/
def normalizeString : Option String → Option String
  | none => none
  | some s => if (jsTrim s).length > 0 then some (jsTrim s) else none

/-- `normalizeString` (src/lib/ocr.ts) on a multipart field value: a
`File` value fails the `typeof value === "string"` test. -/
def normalizeStringForm : Option FormVal → Option String
  | some (.str s) => if (jsTrim s).length > 0 then some (jsTrim s) else none
  | _ => none

/-- `resolveTaskType` (src/lib/ocr.ts): a forced task type (alias
endpoint) wins unconditionally; otherwise the candidate is required and
validated against the enumeration. -/
def resolveTaskType (forced : Option TaskType) (candidate : Option String) :
    Except Err TaskType :=
  match forced with
  | some t => .ok t
  | none =>
    match candidate with
    | none =>
      .error (.ocr ⟨400, "MISSING_TASK_TYPE", "请在请求中提供 taskType 字段。", none⟩)
    | some c =>
      match taskTypeOfString c with
      | none =>
        .error (.ocr ⟨400, "INVALID_TASK_TYPE", "taskType 不在允许的枚举范围内。", none⟩)
      | some t => .ok t

/-- `getExtension` (src/lib/ocr.ts): lower-cased last dot-separated
component, absent when the name contains no dot. -/
def getExtension (filename : String) : Option String :=
  let parts := splitOnSep (fun c => c = '.') filename.data
  if parts.length < 2 then none
  else (parts.getLast?).map (fun l => strToLower (String.mk l))

/-- `inferMimeType` (src/lib/ocr.ts). -/
def inferMimeType (filename : String) : Option String :=
  match getExtension filename with
  | some "jpg" => some "image/jpeg"
  | some "jpeg" => some "image/jpeg"
  | some "png" => some "image/png"
  | some "gif" => some "image/gif"
  | some "bmp" => some "image/bmp"
  | some "webp" => some "image/webp"
  | some "pdf" => some "application/pdf"
  | _ => none

def optStrField : JField → Option (Option String)
  | .absent => some none
  | .str s => some (some s)
  | .other => none

def taskTypeField : JField → Option (Option TaskType)
  | .absent => some none
  | .str s => (taskTypeOfString s).map some
  | .other => none

/-- `JsonRequestSchema.extend({taskType: TaskTypeSchema.optional()})
.safeParse` (src/types.ts, src/lib/ocr.ts): `image` must be a string of
length at least 1, `filename`/`prompt`/`text` optional strings,
`taskType` an optional enumeration member. -/
def safeParseJsonRequest (raw : JsonRaw) : Option ParsedJson :=
  match raw.image, optStrField raw.filename, optStrField raw.prompt,
      optStrField raw.text, taskTypeField raw.taskType with
  | .str s, some filename, some prompt, some text, some tt =>
    if s.length ≥ 1 then some ⟨s, filename, prompt, text, tt⟩ else none
  | _, _, _, _, _ => none

/-- Stand-in for `formatZodError` (src/lib/ocr.ts): the real message
aggregates the validator's issue messages; theorems about the
`INVALID_JSON` failure constrain only the code and status. -/
def zodIssuesMessage : String :=
  "invalid request body"

/-- `parseMultipart` (src/lib/ocr.ts). -/
def parseMultipart (body : MultipartBody) (forced : Option TaskType) :
    Except Err ParsedInput :=
  match first body.image with
  | some (.file f) =>
    match resolveTaskType forced (normalizeStringForm (first body.taskType)) with
    | .error e => .error e
    | .ok tt =>
      .ok { file := f
            filename := if f.name = "" then "upload" else f.name
            taskType := tt
            customPrompt := normalizeStringForm (first body.prompt)
            targetText := normalizeStringForm (first body.text) }
  | _ => .error (.ocr ⟨400, "INVALID_FILE", "请上传有效的图像或 PDF 文件。", none⟩)

/-- `parseJson` (src/lib/ocr.ts).  The argument is the result of
`c.req.json()`: `none` models a body that is not syntactically valid
JSON, whose parse exception is not an `OcrError`. -/
def parseJson (raw? : Option JsonRaw) (forced : Option TaskType) :
    Except Err ParsedInput :=
  match raw? with
  | none => .error .generic
  | some raw =>
    match safeParseJsonRequest raw with
    | none => .error (.ocr ⟨400, "INVALID_JSON", zodIssuesMessage, none⟩)
    | some payload =>
      if payload.image = "" then
        .error (.ocr ⟨400, "MISSING_IMAGE", "JSON 请求必须提供 image 字段（base64 编码）。", none⟩)
      else
        let filename := jsOrStr payload.filename "upload"
        match base64ToUint8Array payload.image with
        | none => .error .generic
        | some bytes =>
          let mimeType := (inferMimeType filename).getD "application/octet-stream"
          let file : FileV := ⟨filename, mimeType, bytes⟩
          match resolveTaskType forced (payload.taskType.map taskTypeToString) with
          | .error e => .error e
          | .ok tt =>
            .ok { file := file
                  filename := filename
                  taskType := tt
                  customPrompt := normalizeString payload.prompt
                  targetText := normalizeString payload.text }

/-- A request as the handler sees it: the content-type header plus the
body under each reader (`parseBody` for multipart, `json` for JSON);
the header decides which reader runs. -/
structure RequestV where
  contentTypeHeader : Option String
  multipartBody : MultipartBody
  jsonBody : Option JsonRaw
deriving DecidableEq, Repr

/-- `parseInput` (src/lib/ocr.ts). -/
def parseInput (req : RequestV) (forced : Option TaskType) :
    Except Err ParsedInput :=
  let contentType := req.contentTypeHeader.getD ""
  if strIncludes contentType "multipart/form-data" then
    parseMultipart req.multipartBody forced
  else if strIncludes contentType "application/json" then
    parseJson req.jsonBody forced
  else
    .error (.ocr ⟨415, "UNSUPPORTED_CONTENT_TYPE",
      "仅支持 multipart/form-data 或 application/json 请求。", none⟩)

def DEFAULT_MAX_FILE_SIZE : Nat := 10 * 1024 * 1024

def DEFAULT_SUPPORTED_FORMATS : List String :=
  ["image/jpeg", "image/png", "image/gif", "image/bmp", "image/webp",
   "application/pdf"]

/-- Value of a list of decimal digits (callers ensure validity). -/
def natOfDigits (l : List Char) : Nat :=
  l.foldl (fun acc c => acc * 10 + (c.toNat - 48)) 0

def hexDigitVal? (c : Char) : Option Nat :=
  if c.isDigit then some (c.toNat - 48)
  else if 'a' ≤ c && c ≤ 'f' then some (c.toNat - 87)
  else if 'A' ≤ c && c ≤ 'F' then some (c.toNat - 55)
  else none

def octDigitVal? (c : Char) : Option Nat :=
  if '0' ≤ c && c ≤ '7' then some (c.toNat - 48) else none

def binDigitVal? (c : Char) : Option Nat :=
  if c = '0' then some 0 else if c = '1' then some 1 else none

def radixValAux (base : Nat) (digit? : Char → Option Nat) :
    List Char → Nat → Option Nat
  | [], acc => some acc
  | c :: rest, acc =>
    match digit? c with
    | some d => radixValAux base digit? rest (base * acc + d)
    | none => none

/-- Value of a non-empty digit string in the given base; `none` on an
empty string or an invalid digit. -/
def radixVal (base : Nat) (digit? : Char → Option Nat) (l : List Char) :
    Option Nat :=
  if l.isEmpty then none else radixValAux base digit? l 0

/-- An exact finite JavaScript number, `num · 10 ^ exp`.  The 53-bit
significand rounding of the double is not modelled: it shifts a
configured value by at most one part in `2^52` and no claim depends on
which side of an integer byte count such a perturbation falls. -/
structure JsNum where
  num : Int
  exp : Int
deriving DecidableEq, Repr

def JsNum.ofNat (n : Nat) : JsNum := ⟨(n : Int), 0⟩

/-- The value as an integer fraction `a / d` with `d > 0`. -/
def JsNum.toFrac (v : JsNum) : Int × Int :=
  if 0 ≤ v.exp then (v.num * (10 : Int) ^ v.exp.toNat, 1)
  else (v.num, (10 : Int) ^ (-v.exp).toNat)

/-- `0 < v` — the code's `parsed > 0` test. -/
def JsNum.isPos (v : JsNum) : Bool :=
  0 < v.num

/-- `v < n` for a byte count `n` — the code's `file.size > maxFileSize`
test — decided by cross-multiplication. -/
def JsNum.natLt (v : JsNum) (n : Nat) : Bool :=
  v.toFrac.1 < (n : Int) * v.toFrac.2

/-- Doubles overflow to `Infinity` from `2^1024` on (`Number.isFinite`
then fails); magnitudes below the least subnormal `2^-1074` round to
zero.  The boundary rounding within one unit in the last place is not
modelled.  Both powers of two are written as literals so that kernel
evaluation never unfolds a deep power. -/
def DBL_OVERFLOW : Int := 179769313486231590772930519078902473361797697894230657273430081157732675805500963132708477322407536021120113879871393357658789768814416622492847430639474124377767893424865485276302219601246094119453082952085005768838150682342462881473913110540827237163350510684586298239947245938479716304835356329624224137216

/-- `2 ^ 1074`, the reciprocal of the least subnormal double. -/
def DBL_UNDERFLOW_DEN : Int := 202402253307310618352495346718917307049556649764142118356901358027430339567995346891960383701437124495187077864316811911389808737385793476867013399940738509921517424276566361364466907742093216341239767678472745068562007483424692698618103355649159556340810056512358769552333414615230502532186327508646006263307707741093494784

/-- Classify the exact decimal `±mantissa · 10^(exp - fracLen)` as a
double: `none` for overflow to infinity, zero on underflow.
`digitCount` bounds the mantissa (`mantissa < 10 ^ digitCount`), so
extreme exponents are decided without computing the power. -/
def jsNumOfDecimal (neg : Bool) (mantissa digitCount fracLen : Nat)
    (exp : Int) : Option JsNum :=
  if mantissa = 0 then some ⟨0, 0⟩
  else
    let e : Int := exp - fracLen
    if e > 400 then none
    else if e + digitCount < -400 then some ⟨0, 0⟩
    else
      let v : JsNum := ⟨if neg then -(mantissa : Int) else (mantissa : Int), e⟩
      if DBL_OVERFLOW * v.toFrac.2 ≤ (v.toFrac.1.natAbs : Int) then none
      else if (v.toFrac.1.natAbs : Int) * DBL_UNDERFLOW_DEN < v.toFrac.2 then
        some ⟨0, 0⟩
      else some v

/-- JavaScript `StrDecimalLiteral` after the optional sign:
`digits [. digits] [e|E [+|-] digits]`, at least one digit in the
integer-or-fraction part; yields the concatenated mantissa digits,
their count, the fraction length and the exponent. -/
def parseDecimalLit (l : List Char) : Option (Nat × Nat × Nat × Int) :=
  let ip := l.takeWhile Char.isDigit
  let r1 := l.drop ip.length
  let fp :=
    match r1 with
    | '.' :: rest => rest.takeWhile Char.isDigit
    | _ => []
  let r2 :=
    match r1 with
    | '.' :: rest => rest.drop fp.length
    | _ => r1
  if ip.isEmpty && fp.isEmpty then none
  else
    let mantissa := natOfDigits (ip ++ fp)
    let dc := ip.length + fp.length
    match r2 with
    | [] => some (mantissa, dc, fp.length, 0)
    | e :: r3 =>
      if e = 'e' || e = 'E' then
        let enegr4 : Bool × List Char :=
          match r3 with
          | '-' :: r => (true, r)
          | '+' :: r => (false, r)
          | r => (false, r)
        let ed := enegr4.2.takeWhile Char.isDigit
        if ed.length = 0 ∨ ed.length ≠ enegr4.2.length then none
        else
          some (mantissa, dc, fp.length,
            if enegr4.1 then -(natOfDigits ed : Int) else (natOfDigits ed : Int))
      else none

def parseUnsignedDec (neg : Bool) (l : List Char) : Option JsNum :=
  if l = "Infinity".data then none
  else
    match parseDecimalLit l with
    | none => none
    | some (m, dc, fl, ex) => jsNumOfDecimal neg m dc fl ex

def jsNumOfRadix (n : Nat) : Option JsNum :=
  if DBL_OVERFLOW ≤ (n : Int) then none else some ⟨(n : Int), 0⟩

/-- JavaScript `Number(string)`: trims whitespace; empty → `+0`; an
optional sign followed by a decimal literal or `Infinity`; unsigned
`0x`/`0X`, `0o`/`0O`, `0b`/`0B` radix literals; anything else is
`NaN`.  `none` stands for every not-finite result (`NaN`,
`±Infinity`), which the code's `Number.isFinite` guard sends to the
default. -/
def jsNumber (s : String) : Option JsNum :=
  match (jsTrim s).data with
  | [] => some ⟨0, 0⟩
  | '-' :: r => parseUnsignedDec true r
  | '+' :: r => parseUnsignedDec false r
  | '0' :: 'x' :: r => (radixVal 16 hexDigitVal? r).bind jsNumOfRadix
  | '0' :: 'X' :: r => (radixVal 16 hexDigitVal? r).bind jsNumOfRadix
  | '0' :: 'o' :: r => (radixVal 8 octDigitVal? r).bind jsNumOfRadix
  | '0' :: 'O' :: r => (radixVal 8 octDigitVal? r).bind jsNumOfRadix
  | '0' :: 'b' :: r => (radixVal 2 binDigitVal? r).bind jsNumOfRadix
  | '0' :: 'B' :: r => (radixVal 2 binDigitVal? r).bind jsNumOfRadix
  | l => parseUnsignedDec false l

/-- `getMaxFileSize` (src/lib/ocr.ts): an absent or empty value, a
not-finite value, or a non-positive value falls back to the 10 MiB
default; any finite positive `Number(...)` result — including
fractional, exponent and radix forms — is used as the limit. -/
def getMaxFileSize (envValue : Option String) : JsNum :=
  match envValue with
  | none => JsNum.ofNat DEFAULT_MAX_FILE_SIZE
  | some v =>
    if v = "" then JsNum.ofNat DEFAULT_MAX_FILE_SIZE
    else
      match jsNumber v with
      | some n => if n.isPos then n else JsNum.ofNat DEFAULT_MAX_FILE_SIZE
      | none => JsNum.ofNat DEFAULT_MAX_FILE_SIZE

def jsonWsB (c : Char) : Bool :=
  c = ' ' || c = '\t' || c = '\n' || c = '\r'

def skipJsonWs (l : List Char) : List Char :=
  l.dropWhile jsonWsB

def unescChar (c : Char) : Char :=
  match c with
  | 'n' => '\n'
  | 't' => '\t'
  | 'r' => '\r'
  | 'b' => '\x08'
  | 'f' => '\x0c'
  | c => c

/-- Body of a JSON string literal after the opening quote; returns the
string's characters and the input after the closing quote.  The
common single-character escapes are interpreted; `\uXXXX` escapes are
not (they never occur in format allow-lists). -/
def parseStrBody : List Char → Option (List Char × List Char)
  | [] => none
  | '"' :: rest => some ([], rest)
  | '\\' :: c :: rest =>
    (parseStrBody rest).map (fun p => (unescChar c :: p.1, p.2))
  | c :: rest =>
    (parseStrBody rest).map (fun p => (c :: p.1, p.2))

/-- One or more comma-separated JSON string literals, whitespace
allowed; returns them and the (whitespace-skipped) remaining input. -/
def parseStringsSep (fuel : Nat) (l : List Char) :
    Option (List String × List Char) :=
  match fuel with
  | 0 => none
  | fuel + 1 =>
    match skipJsonWs l with
    | '"' :: rest =>
      match parseStrBody rest with
      | none => none
      | some (schars, rest2) =>
        match skipJsonWs rest2 with
        | ',' :: rest4 =>
          (parseStringsSep fuel rest4).map
            (fun p => (String.mk schars :: p.1, p.2))
        | rest3 => some ([String.mk schars], rest3)
    | _ => none

/-- `JSON.parse` restricted to arrays of strings, which is the only
shape `parseSupportedFormats` acts on: any other input — invalid JSON
or a JSON value that is not an array of strings — makes the code fall
through to the delimiter-splitting branch either via the catch block or
via the `Array.isArray`/`typeof` guard, so both are mapped to `none`. -/
def jsonParseStringArray (s : String) : Option (List String) :=
  match skipJsonWs s.data with
  | '[' :: rest =>
    match skipJsonWs rest with
    | ']' :: rest2 => if skipJsonWs rest2 = [] then some [] else none
    | _ =>
      match parseStringsSep (s.data.length + 1) rest with
      | some (ss, r) =>
        match r with
        | ']' :: r2 => if skipJsonWs r2 = [] then some ss else none
        | _ => none
      | none => none
  | _ => none

def isFormatSep (c : Char) : Bool :=
  c = ',' || jsWhitespaceB c

/-- `parseSupportedFormats` (src/lib/ocr.ts).  The regex `/[,\s]+/`
splits at separator runs; splitting at every separator differs only by
extra empty tokens, which the `filter(Boolean)` removes. -/
def parseSupportedFormats (value : Option String) : List String :=
  match value with
  | none => DEFAULT_SUPPORTED_FORMATS
  | some v =>
    if v = "" then DEFAULT_SUPPORTED_FORMATS
    else
      match jsonParseStringArray v with
      | some parsed =>
        if parsed.length > 0 then parsed else DEFAULT_SUPPORTED_FORMATS
      | none =>
        let list := ((splitOnSep isFormatSep v.data).map
          (fun l => jsTrim (String.mk l))).filter (fun s => s ≠ "")
        if list.length > 0 then list else DEFAULT_SUPPORTED_FORMATS

/-- One allow-list entry test, as the closure inside `isAllowedFormat`
(src/lib/ocr.ts): an entry with a `/` is compared to the MIME type, an
entry starting with `.` or a bare token to the extension, all
case-insensitively. -/
def formatEntryMatches (ext : Option String) (normalizedMime : String)
    (format : String) : Bool :=
  let normalized := strToLower (jsTrim format)
  if normalized = "" then false
  else if strIncludes normalized "/" then normalized = normalizedMime
  else if normalized.data.head? = some '.' then
    match ext with
    | some e => String.mk (normalized.data.drop 1) = e
    | none => false
  else
    match ext with
    | some e => normalized = e
    | none => false

/-- `isAllowedFormat` (src/lib/ocr.ts). -/
def isAllowedFormat (formats : List String) (mimeType : String)
    (filename : String) : Bool :=
  formats.any (formatEntryMatches (getExtension filename) (strToLower mimeType))

/-- Number of whole megabytes reported by the `FILE_TOO_LARGE` message:
`Math.round(maxFileSize / 1024 / 1024)` (the two float divisions by
1024 are exact, and `Math.round` is floor of `x + 1/2`). -/
def mbRound (v : JsNum) : Int :=
  (2 * v.toFrac.1 + 1048576 * v.toFrac.2).fdiv (2097152 * v.toFrac.2)

def sizeLimitMessage (v : JsNum) : String :=
  "文件大小超出限制（最大 " ++ toString (mbRound v) ++ "MB）。"

/-- The MIME type `validateFile` matches against:
`file.type || inferMimeType(filename) || ""`. -/
def resolveValidationMime (file : FileV) (filename : String) : String :=
  if file.type = "" then (inferMimeType filename).getD "" else file.type

/-- `validateFile` (src/lib/ocr.ts): size ceiling first, then the
format allow-list. -/
def validateFile (file : FileV) (filename : String) (env : Env) :
    Except Err Unit :=
  let maxFileSize := getMaxFileSize env.MAX_FILE_SIZE
  if maxFileSize.natLt file.size then
    .error (.ocr ⟨413, "FILE_TOO_LARGE", sizeLimitMessage maxFileSize, none⟩)
  else
    let formats := parseSupportedFormats env.SUPPORTED_FORMATS
    if !(isAllowedFormat formats (resolveValidationMime file filename) filename) then
      .error (.ocr ⟨400, "UNSUPPORTED_FORMAT", "当前文件格式不受支持。", none⟩)
    else .ok ()

/-- JavaScript `GetSubstitution` for a string pattern (no capture
groups): in the replacement, `$$` inserts a dollar, `$&` the matched
substring, `$` followed by U+0060 the portion preceding the match,
`$'` the portion following it; any other `$` — including `$1`…`$99`
and `$<`, which with a string pattern have no captures to refer to —
stays literal. -/
def getSubstitution (matched pre suf : List Char) : List Char → List Char
  | [] => []
  | [c] => [c]
  | c :: d :: rest =>
    if c = '$' then
      if d = '$' then '$' :: getSubstitution matched pre suf rest
      else if d = '&' then matched ++ getSubstitution matched pre suf rest
      else if d = '\x60' then pre ++ getSubstitution matched pre suf rest
      else if d = '\'' then suf ++ getSubstitution matched pre suf rest
      else c :: getSubstitution matched pre suf (d :: rest)
    else c :: getSubstitution matched pre suf (d :: rest)

/-- JavaScript `String.prototype.replace` with a string pattern:
replaces the first occurrence of `pat`, the replacement string
interpreted by `getSubstitution`; no occurrence leaves the input
unchanged.  `pre` accumulates, reversed, the characters before the
match. -/
def replaceFirstAux (pat repl : List Char) (pre : List Char) : List Char → List Char
  | [] =>
    if pat = [] then pre.reverse ++ getSubstitution pat pre.reverse [] repl
    else pre.reverse
  | c :: rest =>
    if pat.isPrefixOf (c :: rest) then
      pre.reverse ++ getSubstitution pat pre.reverse ((c :: rest).drop pat.length) repl
        ++ (c :: rest).drop pat.length
    else replaceFirstAux pat repl (c :: pre) rest

def replaceFirstList (pat repl l : List Char) : List Char :=
  replaceFirstAux pat repl [] l

def replaceFirst (s pat repl : String) : String :=
  String.mk (replaceFirstList pat.data repl.data s.data)

/-- Literal first-occurrence replacement — the claim's reading of
`String.prototype.replace`, which ignores the `$` replacement
patterns; stated for comparison with the faithful `replaceFirst`. -/
def specLiteralReplaceFirstList (pat repl : List Char) : List Char → List Char
  | [] => if pat = [] then repl else []
  | c :: rest =>
    if pat.isPrefixOf (c :: rest) then repl ++ (c :: rest).drop pat.length
    else c :: specLiteralReplaceFirstList pat repl rest

def specLiteralReplaceFirst (s pat repl : String) : String :=
  String.mk (specLiteralReplaceFirstList pat.data repl.data s.data)

/-- JavaScript truthiness test `!x` for an optional string. -/
def jsFalsy (o : Option String) : Bool :=
  o.getD "" = ""

/-- `buildPrompt` (src/lib/ocr.ts). -/
def buildPrompt (config : TaskConfig) (customPrompt targetText : Option String) :
    Except Err String :=
  if config.requiresTargetText && jsFalsy targetText then
    .error (.ocr ⟨400, "MISSING_TARGET_TEXT", "文本定位任务需要提供 text 字段。", none⟩)
  else
    let base :=
      if config.requiresTargetText then
        replaceFirst config.defaultPrompt "\x7b\x7btarget\x7d\x7d" (targetText.getD "")
      else config.defaultPrompt
    if config.allowCustomPrompt && !jsFalsy customPrompt then
      .ok (base ++ "\n" ++ customPrompt.getD "")
    else .ok base

/-- `prepareFile` result (src/lib/ocr.ts). -/
structure PreparedFile where
  base64 : String
  mimeType : String
  filename : String
deriving DecidableEq, Repr

/-- `prepareFile` (src/lib/ocr.ts):
`file.type || inferMimeType(filename) || "application/octet-stream"`. -/
def prepareFile (file : FileV) (filename : String) : PreparedFile :=
  { base64 := fileToBase64 file.content
    mimeType :=
      if file.type = "" then (inferMimeType filename).getD "application/octet-stream"
      else file.type
    filename := filename }

/-- One part of an array-shaped message content; `text` is `none` when
the part has no `text` field or its `text` is not a string. -/
structure PartV where
  text : Option String
deriving DecidableEq, Repr

/-- `choices[0].message?.content`: a plain string, a list of parts, or
anything else (`other` also covers an absent `message`/`content`). -/
inductive MessageContent where
  | str (s : String)
  | parts (l : List PartV)
  | other
deriving DecidableEq, Repr

structure ChoiceV where
  content : MessageContent
  confidence : Option Nat
deriving DecidableEq, Repr

/-- The upstream response payload, as far as the code reads it:
`choices`, `error.message` and `model` (an absent `choices` field is
the empty list — both make `choices?.[0]` undefined). -/
structure UpstreamPayload where
  choices : List ChoiceV
  errorMessage : Option String
  model : Option String
deriving DecidableEq, Repr

/-- `extractTextFromResponse` (src/lib/ocr.ts); the argument is
`undefined` (`none`) when the body was not valid JSON. -/
def extractTextFromResponse (payload : Option UpstreamPayload) :
    Except Err (String × Option Nat) :=
  match payload.bind (fun p => p.choices.head?) with
  | none => .error (.ocr ⟨502, "EMPTY_RESPONSE", "OCR 接口未返回有效内容。", none⟩)
  | some choice =>
    let text :=
      match choice.content with
      | .str s => jsTrim s
      | .parts l => jsTrim (joinList "\n" (l.map (fun part => part.text.getD "")))
      | .other => ""
    if text = "" then
      .error (.ocr ⟨502, "EMPTY_RESPONSE", "OCR 结果为空，请重试。", none⟩)
    else .ok (text, choice.confidence)

/-- The upstream HTTP response: status information, the raw body text,
and `parsed`, the result of `JSON.parse` on that body (`none` when the
body is not valid JSON — the code swallows that error). -/
structure FetchResponse where
  ok : Bool
  status : Nat
  statusText : String
  bodyText : String
  parsed : Option UpstreamPayload
deriving DecidableEq, Repr

/-- `.replace(/\/$/, "")`: drop one trailing slash. -/
def trimTrailingSlash (s : String) : String :=
  match s.data.getLast? with
  | some '/' => String.mk s.data.dropLast
  | _ => s

/-- The URL the upstream request is sent to (src/lib/ocr.ts); recorded
for fidelity, the network call itself is the `FetchResponse` argument. -/
def siliconFlowEndpoint (env : Env) : String :=
  trimTrailingSlash (jsOrStr env.SILICONFLOW_BASE_URL "https://api.siliconflow.cn")
    ++ "/v1/chat/completions"

structure UpstreamResult where
  text : String
  confidence : Option Nat
  model : String
deriving DecidableEq, Repr

/-- `invokeSiliconFlow` (src/lib/ocr.ts): credential guard, then the
response is classified — non-2xx becomes `UPSTREAM_ERROR` carrying the
upstream status and raw body, a 2xx body goes through
`extractTextFromResponse`. -/
def invokeSiliconFlow (env : Env) (response : FetchResponse) :
    Except Err UpstreamResult :=
  match env.SILICONFLOW_API_KEY with
  | none => .error (.ocr ⟨500, "MISSING_API_KEY", "未配置 SILICONFLOW_API_KEY 环境变量。", none⟩)
  | some apiKey =>
    if apiKey = "" then
      .error (.ocr ⟨500, "MISSING_API_KEY", "未配置 SILICONFLOW_API_KEY 环境变量。", none⟩)
    else
      let model := jsOrStr env.SILICONFLOW_MODEL_ID "deepseek-ai/DeepSeek-OCR"
      let data := response.parsed
      if !response.ok then
        let message :=
          jsOrStr (data.bind (fun d => d.errorMessage))
            (jsOrStr (some response.statusText) "API 调用失败")
        .error (.ocr ⟨response.status, "UPSTREAM_ERROR",
          "硅基流动接口错误：" ++ message, some response.bodyText⟩)
      else
        match extractTextFromResponse data with
        | .error e => .error e
        | .ok (text, confidence) =>
          .ok ⟨text, confidence, jsOrStr (data.bind (fun d => d.model)) model⟩

/-- The `data` object of a success envelope (src/lib/ocr.ts). -/
structure SuccessData where
  text : String
  confidence : Option Nat
  processingTime : Nat
  model : String
  taskType : TaskType
  promptUsed : String
  filename : String
deriving DecidableEq, Repr

structure ErrorBody where
  code : String
  message : String
  details : Option String
deriving DecidableEq, Repr

/-- The uniform response envelope: a 200 success with data, or an
error with its HTTP status. -/
inductive Envelope where
  | success (data : SuccessData)
  | failure (status : Nat) (error : ErrorBody)
deriving DecidableEq, Repr

/-- `handleError` (src/lib/ocr.ts): an `OcrError` keeps its status,
code, message and details; anything else is downgraded to the fixed
`INTERNAL_ERROR` envelope. -/
def handleError : Err → Envelope
  | .ocr e => .failure e.status ⟨e.code, e.message, e.details⟩
  | .generic => .failure 500 ⟨"INTERNAL_ERROR", "服务暂时不可用，请稍后重试。", none⟩

/-- The `try` block of `handleOcrRequest` (src/lib/ocr.ts): parse →
look up config → build prompt → validate → prepare → invoke upstream. -/
def ocrPipeline (req : RequestV) (forced : Option TaskType) (env : Env)
    (response : FetchResponse) : Except Err (ParsedInput × String × PreparedFile × UpstreamResult) :=
  match parseInput req forced with
  | .error e => .error e
  | .ok payload =>
    let config := TASK_CONFIGS payload.taskType
    match buildPrompt config payload.customPrompt payload.targetText with
    | .error e => .error e
    | .ok finalPrompt =>
      match validateFile payload.file payload.filename env with
      | .error e => .error e
      | .ok _ =>
        let fileInfo := prepareFile payload.file payload.filename
        match invokeSiliconFlow env response with
        | .error e => .error e
        | .ok result => .ok (payload, finalPrompt, fileInfo, result)

/-- `handleOcrRequest` (src/lib/ocr.ts).  `response` stands for the
upstream `fetch` result and `processingTime` for the measured
wall-clock duration, both effects of the run. -/
def handleOcrRequest (req : RequestV) (forced : Option TaskType) (env : Env)
    (response : FetchResponse) (processingTime : Nat) : Envelope :=
  match ocrPipeline req forced env response with
  | .ok (payload, finalPrompt, fileInfo, result) =>
    .success
      { text := result.text
        confidence := result.confidence
        processingTime := processingTime
        model := result.model
        taskType := payload.taskType
        promptUsed := finalPrompt
        filename := fileInfo.filename }
  | .error e => handleError e

theorem sext_b64 : ∀ i < 64, sextOf (b64Char i) = some i := by decide

theorem b64Char_ne_eq : ∀ i < 64, b64Char i ≠ '=' := by decide

theorem decode_encode (l : List Nat) (h : ∀ b ∈ l, b < 256) :
    decodeB64Groups (encodeB64Chars l) = some l := by
  induction l using encodeB64Chars.induct with
  | case1 => rfl
  | case2 a =>
    have ha : a < 256 := h a (by simp)
    have h1 : a / 4 < 64 := by omega
    have h2 : a % 4 * 16 < 64 := by omega
    simp only [encodeB64Chars, decodeB64Groups, sext_b64 _ h1, sext_b64 _ h2]
    simp only [if_pos rfl, List.isEmpty_nil, Bool.and_true, decide_True,
      if_true, Option.some.injEq, List.cons.injEq, and_true]
    omega
  | case3 a b =>
    have ha : a < 256 := h a (by simp)
    have hb : b < 256 := h b (by simp)
    have h1 : a / 4 < 64 := by omega
    have h2 : a % 4 * 16 + b / 16 < 64 := by omega
    have h3 : b % 16 * 4 < 64 := by omega
    simp only [encodeB64Chars, decodeB64Groups, sext_b64 _ h1, sext_b64 _ h2,
      sext_b64 _ h3]
    rw [if_neg (b64Char_ne_eq _ h3)]
    simp only [if_pos rfl, List.isEmpty_nil, if_true, Option.some.injEq,
      List.cons.injEq, and_true]
    omega
  | case4 a b c rest ih =>
    have ha : a < 256 := h a (by simp)
    have hb : b < 256 := h b (by simp)
    have hc : c < 256 := h c (by simp)
    have h1 : a / 4 < 64 := by omega
    have h2 : a % 4 * 16 + b / 16 < 64 := by omega
    have h3 : b % 16 * 4 + c / 64 < 64 := by omega
    have h4 : c % 64 < 64 := by omega
    have ih' : decodeB64Groups (encodeB64Chars rest) = some rest :=
      ih (fun x hx => h x (by simp [hx]))
    simp only [encodeB64Chars, decodeB64Groups, sext_b64 _ h1, sext_b64 _ h2,
      sext_b64 _ h3, sext_b64 _ h4]
    rw [if_neg (b64Char_ne_eq _ h3), if_neg (b64Char_ne_eq _ h4)]
    simp only [ih', Option.map_some', Option.some.injEq, List.cons.injEq, and_true]
    refine ⟨by omega, by omega, by omega⟩

theorem b64Char_mem (i : Nat) : b64Char i ∈ b64Alphabet := by
  unfold b64Char
  simp only [List.getD]
  rcases h : b64Alphabet.get? i with _ | c
  · decide
  · simp only [Option.getD_some]
    exact List.get?_mem h

theorem b64Char_clean (i : Nat) :
    b64Char i ≠ ',' ∧ jsWhitespaceB (b64Char i) = false := by
  have hm := b64Char_mem i
  revert hm
  have : ∀ c ∈ b64Alphabet, c ≠ ',' ∧ jsWhitespaceB c = false := by decide
  exact this (b64Char i)

theorem encode_chars_clean (l : List Nat) :
    ∀ ch ∈ encodeB64Chars l, ch ≠ ',' ∧ jsWhitespaceB ch = false := by
  induction l using encodeB64Chars.induct with
  | case1 => intro ch hch; simp [encodeB64Chars] at hch
  | case2 a =>
    intro ch hch
    simp only [encodeB64Chars, List.mem_cons, List.mem_singleton] at hch
    rcases hch with h | h | h | h | h
    · exact h ▸ b64Char_clean _
    · exact h ▸ b64Char_clean _
    · exact h ▸ (by decide)
    · exact h ▸ (by decide)
    · exact absurd h (by simp)
  | case3 a b =>
    intro ch hch
    simp only [encodeB64Chars, List.mem_cons, List.mem_singleton] at hch
    rcases hch with h | h | h | h | h
    · exact h ▸ b64Char_clean _
    · exact h ▸ b64Char_clean _
    · exact h ▸ b64Char_clean _
    · exact h ▸ (by decide)
    · exact absurd h (by simp)
  | case4 a b c rest ih =>
    intro ch hch
    simp only [encodeB64Chars, List.mem_cons] at hch
    rcases hch with h | h | h | h | h
    · exact h ▸ b64Char_clean _
    · exact h ▸ b64Char_clean _
    · exact h ▸ b64Char_clean _
    · exact h ▸ b64Char_clean _
    · exact ih ch h

theorem listIncludes_comma (l : List Char) (h : ∀ c ∈ l, c ≠ ',') :
    listIncludes [','] l = false := by
  induction l with
  | nil => rfl
  | cons c t ih =>
    simp only [listIncludes, List.isPrefixOf, Bool.or_eq_false_iff]
    constructor
    · simp only [Bool.and_eq_false_iff]
      left
      have := h c (by simp)
      simp [beq_eq_false_iff_ne, this]
      exact fun hc => this hc.symm
    · exact ih (fun x hx => h x (by simp [hx]))

theorem b64_decode_encode (l : List Nat) (h : ∀ b ∈ l, b < 256) :
    base64ToUint8Array (fileToBase64 l) = some l := by
  have hclean := encode_chars_clean l
  unfold base64ToUint8Array fileToBase64
  have hdata : (String.mk (encodeB64Chars l)).data = encodeB64Chars l := rfl
  have hcomma : strIncludes (String.mk (encodeB64Chars l)) "," = false := by
    unfold strIncludes
    rw [hdata]
    exact listIncludes_comma _ (fun c hc => (hclean c hc).1)
  rw [hcomma]
  simp only [Bool.false_eq_true, if_false, hdata]
  rw [List.filter_eq_self.mpr (fun a ha => by simp [(hclean a ha).2])]
  exact decode_encode l h

/-- C8: decoding the base64 string produced by the encoder
(`fileToBase64`) with the decoder (`base64ToUint8Array`) and
re-encoding the resulting bytes reproduces the original base64 string
exactly: encode-after-decode is the identity on encoder outputs. -/
theorem encoder_roundtrip_c8 (l : List Nat) (h : ∀ b ∈ l, b < 256) :
    (base64ToUint8Array (fileToBase64 l)).map fileToBase64 =
      some (fileToBase64 l) := by
  rw [b64_decode_encode l h]
  rfl

/-- Witness for C8 at the concrete byte sequence `[0, 255, 17, 4]`. -/
theorem encoder_roundtrip_c8_witness :
    (base64ToUint8Array (fileToBase64 [0, 255, 17, 4])).map fileToBase64 =
      some (fileToBase64 [0, 255, 17, 4]) :=
  encoder_roundtrip_c8 [0, 255, 17, 4] (by decide)

theorem resolveTaskType_forced (t : TaskType) (c : Option String) :
    resolveTaskType (some t) c = .ok t := rfl

theorem parseMultipart_forced (body : MultipartBody) (t : TaskType)
    (p : ParsedInput) (h : parseMultipart body (some t) = .ok p) :
    p.taskType = t := by
  unfold parseMultipart at h
  split at h
  · rw [resolveTaskType_forced] at h
    cases h
    rfl
  · cases h

theorem parseJson_forced (raw? : Option JsonRaw) (t : TaskType)
    (p : ParsedInput) (h : parseJson raw? (some t) = .ok p) :
    p.taskType = t := by
  unfold parseJson at h
  split at h
  · cases h
  · split at h
    · cases h
    · split at h
      · cases h
      · split at h
        · cases h
        · rw [resolveTaskType_forced] at h
          cases h
          rfl

theorem parseInput_forced (req : RequestV) (t : TaskType) (p : ParsedInput)
    (h : parseInput req (some t) = .ok p) : p.taskType = t := by
  simp only [parseInput] at h
  split at h
  · exact parseMultipart_forced _ _ _ h
  · split at h
    · exact parseJson_forced _ _ _ h
    · cases h

theorem handleError_ne_success (e : Err) (d : SuccessData) :
    handleError e ≠ .success d := by
  cases e <;> simp [handleError]

theorem pipeline_ok_taskType (req : RequestV) (env : Env)
    (resp : FetchResponse) (t : TaskType)
    (out : ParsedInput × String × PreparedFile × UpstreamResult)
    (h : ocrPipeline req (some t) env resp = .ok out) :
    out.1.taskType = t := by
  simp only [ocrPipeline] at h
  cases hp : parseInput req (some t) with
  | error e => rw [hp] at h; cases h
  | ok p =>
    rw [hp] at h
    dsimp only at h
    cases hb : buildPrompt (TASK_CONFIGS p.taskType) p.customPrompt p.targetText with
    | error e => rw [hb] at h; cases h
    | ok fp =>
      rw [hb] at h
      dsimp only at h
      cases hv : validateFile p.file p.filename env with
      | error e => rw [hv] at h; cases h
      | ok u =>
        rw [hv] at h
        dsimp only at h
        cases hi : invokeSiliconFlow env resp with
        | error e => rw [hi] at h; cases h
        | ok r =>
          rw [hi] at h
          dsimp only at h
          cases h
          exact parseInput_forced _ _ _ hp

/-- C1: on any of the six fixed-task alias endpoints (a forced task
type), every successful response carries the endpoint's fixed task
type in `data.taskType`, regardless of any `taskType` supplied in the
multipart or JSON body. -/
theorem alias_forced_taskType_c1 (req : RequestV) (env : Env)
    (resp : FetchResponse) (time : Nat) (t : TaskType) (data : SuccessData)
    (h : handleOcrRequest req (some t) env resp time = .success data) :
    data.taskType = t := by
  unfold handleOcrRequest at h
  split at h
  · next payload finalPrompt fileInfo result heq =>
    cases h
    exact pipeline_ok_taskType _ _ _ _ _ heq
  · exact absurd h (handleError_ne_success _ _)

def wEnv : Env := ⟨some "k", none, none, none, none⟩

def wResp : FetchResponse :=
  ⟨true, 200, "OK", "raw", some ⟨[⟨.str "hello", none⟩], none, none⟩⟩

def wFile : FileV := ⟨"a.png", "image/png", [1, 2, 3]⟩

/-- A multipart body that declares `taskType = "chart_parse"`, to be
overridden by a forced task type. -/
def wBody : MultipartBody :=
  ⟨.single (.file wFile), .undef, .undef, .single (.str "chart_parse")⟩

def wReq : RequestV := ⟨some "multipart/form-data; boundary=x", wBody, none⟩

def wDataGeneral : SuccessData :=
  ⟨"hello", none, 5, "deepseek-ai/DeepSeek-OCR", .general_ocr,
    "<image>\n<|grounding|>OCR this image.", "a.png"⟩

/-- Witness for C1: a successful run of the `general_ocr` alias whose
body declared `taskType = "chart_parse"` resolves to `general_ocr`. -/
theorem alias_forced_taskType_c1_witness : wDataGeneral.taskType = .general_ocr :=
  alias_forced_taskType_c1 wReq wEnv wResp 5 .general_ocr wDataGeneral (by decide)

theorem pipeline_parse_error (req : RequestV) (forced : Option TaskType)
    (env : Env) (resp : FetchResponse) (e : Err)
    (h : parseInput req forced = .error e) :
    ocrPipeline req forced env resp = .error e := by
  unfold ocrPipeline
  rw [h]

theorem handle_of_parse_error (req : RequestV) (forced : Option TaskType)
    (env : Env) (resp : FetchResponse) (time : Nat) (e : Err)
    (h : parseInput req forced = .error e) :
    handleOcrRequest req forced env resp time = handleError e := by
  unfold handleOcrRequest
  rw [pipeline_parse_error _ _ _ _ _ h]

theorem parseInput_json (req : RequestV) (forced : Option TaskType)
    (hmp : strIncludes (req.contentTypeHeader.getD "") "multipart/form-data" = false)
    (hjs : strIncludes (req.contentTypeHeader.getD "") "application/json" = true) :
    parseInput req forced = parseJson req.jsonBody forced := by
  simp only [parseInput, hmp, hjs, Bool.false_eq_true, if_false, if_true]

/-- C9: a request declaring `application/json` whose body is not
syntactically valid JSON (the body reader throws a non-`OcrError`
exception before schema validation) is answered with the generic
`INTERNAL_ERROR` envelope and status 500, not `INVALID_JSON`/400. -/
theorem json_syntax_error_internal_c9 (req : RequestV) (forced : Option TaskType)
    (env : Env) (resp : FetchResponse) (time : Nat)
    (hmp : strIncludes (req.contentTypeHeader.getD "") "multipart/form-data" = false)
    (hjs : strIncludes (req.contentTypeHeader.getD "") "application/json" = true)
    (hbody : req.jsonBody = none) :
    handleOcrRequest req forced env resp time =
      .failure 500 ⟨"INTERNAL_ERROR", "服务暂时不可用，请稍后重试。", none⟩ := by
  have hparse : parseInput req forced = .error .generic := by
    rw [parseInput_json _ _ hmp hjs, hbody]
    rfl
  rw [handle_of_parse_error _ _ _ _ _ _ hparse]
  rfl

def wReqBadJson : RequestV := ⟨some "application/json", wBody, none⟩

/-- Witness for C9 at a concrete JSON request with unparsable body. -/
theorem json_syntax_error_internal_c9_witness :
    handleOcrRequest wReqBadJson none wEnv wResp 5 =
      .failure 500 ⟨"INTERNAL_ERROR", "服务暂时不可用，请稍后重试。", none⟩ :=
  json_syntax_error_internal_c9 wReqBadJson none wEnv wResp 5
    (by decide) (by decide) rfl

theorem safeParse_invalid_taskType (raw : JsonRaw) (s : String)
    (ht : raw.taskType = .str s) (hs : taskTypeOfString s = none) :
    safeParseJsonRequest raw = none := by
  have htf : taskTypeField raw.taskType = none := by
    rw [ht]
    simp [taskTypeField, hs]
  unfold safeParseJsonRequest
  split
  · next heq => simp_all
  · rfl

theorem parseJson_schema_fail (raw : JsonRaw) (forced : Option TaskType)
    (h : safeParseJsonRequest raw = none) :
    parseJson (some raw) forced =
      .error (.ocr ⟨400, "INVALID_JSON", zodIssuesMessage, none⟩) := by
  unfold parseJson
  dsimp only
  rw [h]

def wBodyBogusTask : MultipartBody :=
  ⟨.single (.file wFile), .undef, .undef, .single (.str "not_a_task")⟩

def wReqBogusTask : RequestV :=
  ⟨some "multipart/form-data; boundary=x", wBodyBogusTask, none⟩

def wDataChart : SuccessData :=
  ⟨"hello", none, 5, "deepseek-ai/DeepSeek-OCR", .chart_parse,
    "<image>\nParse the figure.", "a.png"⟩

/-- C10: on a fixed-task alias endpoint, a JSON body whose `taskType`
is a string outside the enumeration is rejected with `INVALID_JSON`
and status 400 by schema validation before the forced task type
applies, while on the multipart path the same invalid field is ignored
(the forced task is used) and the request can succeed. -/
theorem alias_invalid_taskType_c10 :
    (∀ (req : RequestV) (t : TaskType) (env : Env) (resp : FetchResponse)
        (time : Nat) (raw : JsonRaw) (s : String),
      strIncludes (req.contentTypeHeader.getD "") "multipart/form-data" = false →
      strIncludes (req.contentTypeHeader.getD "") "application/json" = true →
      req.jsonBody = some raw →
      raw.taskType = .str s →
      taskTypeOfString s = none →
      handleOcrRequest req (some t) env resp time =
        .failure 400 ⟨"INVALID_JSON", zodIssuesMessage, none⟩) ∧
    handleOcrRequest wReqBogusTask (some .chart_parse) wEnv wResp 5 =
      .success wDataChart := by
  constructor
  · intro req t env resp time raw s hmp hjs hbody ht hs
    have hparse : parseInput req (some t) =
        .error (.ocr ⟨400, "INVALID_JSON", zodIssuesMessage, none⟩) := by
      rw [parseInput_json _ _ hmp hjs, hbody]
      exact parseJson_schema_fail _ _ (safeParse_invalid_taskType _ _ ht hs)
    rw [handle_of_parse_error _ _ _ _ _ _ hparse]
    rfl
  · decide

/-- Witness for C10's universally quantified conjunct at a concrete
alias-endpoint JSON request with `taskType = "not_a_task"`. -/
theorem alias_invalid_taskType_c10_witness :
    handleOcrRequest ⟨some "application/json", wBody, some ⟨.str "AQID", .absent, .absent, .absent, .str "not_a_task"⟩⟩
        (some .chart_parse) wEnv wResp 5 =
      .failure 400 ⟨"INVALID_JSON", zodIssuesMessage, none⟩ :=
  alias_invalid_taskType_c10.1 _ .chart_parse wEnv wResp 5 _ "not_a_task"
    (by decide) (by decide) rfl rfl (by decide)

theorem safeParse_image_ne (raw : JsonRaw) (payload : ParsedJson)
    (h : safeParseJsonRequest raw = some payload) : payload.image ≠ "" := by
  unfold safeParseJsonRequest at h
  split at h
  · next s _ _ _ _ _ _ _ _ _ =>
    split at h
    · next hlen =>
      cases h
      intro hcon
      dsimp only at hcon
      subst hcon
      exact absurd hlen (by decide)
    · cases h
  · cases h

theorem pipeline_buildPrompt_error (req : RequestV) (forced : Option TaskType)
    (env : Env) (resp : FetchResponse) (p : ParsedInput) (e : Err)
    (hp : parseInput req forced = .ok p)
    (hb : buildPrompt (TASK_CONFIGS p.taskType) p.customPrompt p.targetText = .error e) :
    ocrPipeline req forced env resp = .error e := by
  unfold ocrPipeline
  rw [hp]
  dsimp only
  rw [hb]

theorem handle_of_buildPrompt_error (req : RequestV) (forced : Option TaskType)
    (env : Env) (resp : FetchResponse) (time : Nat) (p : ParsedInput) (e : Err)
    (hp : parseInput req forced = .ok p)
    (hb : buildPrompt (TASK_CONFIGS p.taskType) p.customPrompt p.targetText = .error e) :
    handleOcrRequest req forced env resp time = handleError e := by
  unfold handleOcrRequest
  rw [pipeline_buildPrompt_error _ _ _ _ _ _ hp hb]

theorem buildPrompt_missing_target (c : Option String) :
    buildPrompt (TASK_CONFIGS .text_localization) c none =
      .error (.ocr ⟨400, "MISSING_TARGET_TEXT", "文本定位任务需要提供 text 字段。", none⟩) := rfl

theorem parseMultipart_shape (body : MultipartBody) (forced : Option TaskType)
    (f : FileV) (tt : TaskType)
    (hf : first body.image = some (.file f))
    (ht : resolveTaskType forced (normalizeStringForm (first body.taskType)) = .ok tt) :
    parseMultipart body forced = .ok
      { file := f
        filename := if f.name = "" then "upload" else f.name
        taskType := tt
        customPrompt := normalizeStringForm (first body.prompt)
        targetText := normalizeStringForm (first body.text) } := by
  unfold parseMultipart
  rw [hf]
  dsimp only
  rw [ht]

theorem parseJson_shape (raw : JsonRaw) (forced : Option TaskType)
    (payload : ParsedJson) (bytes : List Nat) (tt : TaskType)
    (hs : safeParseJsonRequest raw = some payload)
    (hb : base64ToUint8Array payload.image = some bytes)
    (ht : resolveTaskType forced (payload.taskType.map taskTypeToString) = .ok tt) :
    parseJson (some raw) forced = .ok
      { file := ⟨jsOrStr payload.filename "upload",
          (inferMimeType (jsOrStr payload.filename "upload")).getD "application/octet-stream",
          bytes⟩
        filename := jsOrStr payload.filename "upload"
        taskType := tt
        customPrompt := normalizeString payload.prompt
        targetText := normalizeString payload.text } := by
  simp only [parseJson, hs, if_neg (safeParse_image_ne _ _ hs), hb, ht]

/-- C6: every text-localization request (task forced by the alias
endpoint or declared in the body) whose `text` field is absent —
including present but empty or whitespace-only after trimming, which
`normalizeString` maps to absent — fails with `MISSING_TARGET_TEXT`
and status 400, on both the multipart and the JSON input paths. -/
theorem missing_target_text_c6 :
    (∀ (req : RequestV) (forced : Option TaskType) (env : Env)
        (resp : FetchResponse) (time : Nat) (f : FileV),
      strIncludes (req.contentTypeHeader.getD "") "multipart/form-data" = true →
      first req.multipartBody.image = some (.file f) →
      resolveTaskType forced (normalizeStringForm (first req.multipartBody.taskType)) =
        .ok .text_localization →
      normalizeStringForm (first req.multipartBody.text) = none →
      handleOcrRequest req forced env resp time =
        .failure 400 ⟨"MISSING_TARGET_TEXT", "文本定位任务需要提供 text 字段。", none⟩) ∧
    (∀ (req : RequestV) (forced : Option TaskType) (env : Env)
        (resp : FetchResponse) (time : Nat) (raw : JsonRaw)
        (payload : ParsedJson) (bytes : List Nat),
      strIncludes (req.contentTypeHeader.getD "") "multipart/form-data" = false →
      strIncludes (req.contentTypeHeader.getD "") "application/json" = true →
      req.jsonBody = some raw →
      safeParseJsonRequest raw = some payload →
      base64ToUint8Array payload.image = some bytes →
      resolveTaskType forced (payload.taskType.map taskTypeToString) =
        .ok .text_localization →
      normalizeString payload.text = none →
      handleOcrRequest req forced env resp time =
        .failure 400 ⟨"MISSING_TARGET_TEXT", "文本定位任务需要提供 text 字段。", none⟩) ∧
    (∀ s : String, jsTrim s = "" → normalizeString (some s) = none) ∧
    normalizeString none = none := by
  refine ⟨?_, ?_, ?_, rfl⟩
  · intro req forced env resp time f hct hf ht htext
    have hparse : parseInput req forced = parseMultipart req.multipartBody forced := by
      simp only [parseInput, hct, if_true]
    have hshape := parseMultipart_shape req.multipartBody forced f .text_localization hf ht
    rw [htext] at hshape
    rw [handle_of_buildPrompt_error req forced env resp time _ _
      (hparse.trans hshape) (buildPrompt_missing_target _)]
    rfl
  · intro req forced env resp time raw payload bytes hmp hjs hbody hs hb ht htext
    have hparse : parseInput req forced = parseJson (some raw) forced := by
      rw [parseInput_json _ _ hmp hjs, hbody]
    have hshape := parseJson_shape raw forced payload bytes .text_localization hs hb ht
    rw [htext] at hshape
    rw [handle_of_buildPrompt_error req forced env resp time _ _
      (hparse.trans hshape) (buildPrompt_missing_target _)]
    rfl
  · intro s hts
    simp [normalizeString, hts]

/-- A multipart text-localization request whose `text` field is
whitespace-only. -/
def wBodyLocate : MultipartBody :=
  ⟨.single (.file wFile), .undef, .single (.str "   "), .undef⟩

def wReqLocate : RequestV := ⟨some "multipart/form-data", wBodyLocate, none⟩

/-- Witness for C6's multipart conjunct at a concrete request of the
text-localization alias with a whitespace-only `text` field. -/
theorem missing_target_text_c6_witness :
    handleOcrRequest wReqLocate (some .text_localization) wEnv wResp 5 =
      .failure 400 ⟨"MISSING_TARGET_TEXT", "文本定位任务需要提供 text 字段。", none⟩ :=
  missing_target_text_c6.1 wReqLocate (some .text_localization) wEnv wResp 5 wFile
    (by decide) rfl rfl (by decide)

theorem safeParse_bad_image (raw : JsonRaw)
    (h : raw.image = .absent ∨ raw.image = .other ∨ raw.image = .str "") :
    safeParseJsonRequest raw = none := by
  unfold safeParseJsonRequest
  split
  · next s _ _ _ _ heq _ _ _ _ =>
    rcases h with h | h | h
    · rw [h] at heq; cases heq
    · rw [h] at heq; cases heq
    · rw [h] at heq
      cases heq
      simp
  · rfl

theorem resolveTaskType_error_code (forced : Option TaskType)
    (cand : Option String) (e : OcrErrorV)
    (h : resolveTaskType forced cand = .error (.ocr e)) :
    e.code = "MISSING_TASK_TYPE" ∨ e.code = "INVALID_TASK_TYPE" := by
  unfold resolveTaskType at h
  cases forced with
  | some t => cases h
  | none =>
    cases cand with
    | none => cases h; left; rfl
    | some c =>
      dsimp only at h
      cases htt : taskTypeOfString c with
      | none => rw [htt] at h; cases h; right; rfl
      | some t => rw [htt] at h; cases h

theorem parseJson_never_missing_image (raw : JsonRaw) (forced : Option TaskType)
    (e : OcrErrorV) (h : parseJson (some raw) forced = .error (.ocr e)) :
    e.code ≠ "MISSING_IMAGE" := by
  simp only [parseJson] at h
  cases hs : safeParseJsonRequest raw with
  | none =>
    rw [hs] at h
    cases h
    decide
  | some payload =>
    rw [hs] at h
    dsimp only at h
    rw [if_neg (safeParse_image_ne _ _ hs)] at h
    cases hb : base64ToUint8Array payload.image with
    | none => rw [hb] at h; cases h
    | some bytes =>
      rw [hb] at h
      dsimp only at h
      cases ht : resolveTaskType forced (payload.taskType.map taskTypeToString) with
      | error e' =>
        rw [ht] at h
        cases e' with
        | generic => cases h
        | ocr e'' =>
          cases h
          rcases resolveTaskType_error_code _ _ _ ht with hc | hc <;>
            (rw [hc]; decide)
      | ok tt => rw [ht] at h; cases h

def c7raw : JsonRaw := ⟨.absent, .absent, .absent, .absent, .absent⟩

def c7req : RequestV := ⟨some "application/json", wBody, some c7raw⟩

/-- Counterexample to C7 as stated: a JSON request whose body lacks
image data is answered with `INVALID_JSON`, not `MISSING_IMAGE`. -/
theorem json_missing_image_c7_counterexample :
    handleOcrRequest c7req none wEnv wResp 5 =
      .failure 400 ⟨"INVALID_JSON", zodIssuesMessage, none⟩ ∧
    ("INVALID_JSON" : String) ≠ "MISSING_IMAGE" := by
  constructor
  · decide
  · decide

/-- C7 amended: a JSON body lacking image data (field absent, not a
string, or the empty string) fails schema validation and is reported as
`INVALID_JSON` with status 400 — the `MISSING_IMAGE` branch is
unreachable because the schema already requires a non-empty image —
and every other schema violation likewise yields `INVALID_JSON`/400. -/
theorem json_missing_image_c7 :
    (∀ (raw : JsonRaw) (forced : Option TaskType),
      (raw.image = .absent ∨ raw.image = .other ∨ raw.image = .str "") →
      parseJson (some raw) forced =
        .error (.ocr ⟨400, "INVALID_JSON", zodIssuesMessage, none⟩)) ∧
    (∀ (raw : JsonRaw) (forced : Option TaskType),
      safeParseJsonRequest raw = none →
      parseJson (some raw) forced =
        .error (.ocr ⟨400, "INVALID_JSON", zodIssuesMessage, none⟩)) ∧
    (∀ (raw : JsonRaw) (forced : Option TaskType) (e : OcrErrorV),
      parseJson (some raw) forced = .error (.ocr e) → e.code ≠ "MISSING_IMAGE") := by
  refine ⟨?_, ?_, parseJson_never_missing_image⟩
  · intro raw forced h
    exact parseJson_schema_fail _ _ (safeParse_bad_image _ h)
  · intro raw forced h
    exact parseJson_schema_fail _ _ h

/-- Witness for C7's amended claim at the concrete body with no image
field. -/
theorem json_missing_image_c7_witness :
    parseJson (some c7raw) none =
      .error (.ocr ⟨400, "INVALID_JSON", zodIssuesMessage, none⟩) :=
  json_missing_image_c7.1 c7raw none (Or.inl rfl)

def c3parts : List PartV := [⟨some "A"⟩, ⟨none⟩, ⟨some "B"⟩]

def c3payload : UpstreamPayload := ⟨[⟨.parts c3parts, none⟩], none, none⟩

/-- The list-extraction rule as the claim words it — "the string-valued
text parts concatenated with newlines" — stated from the spec for
comparison with `extractTextFromResponse`. -/
def specListExtract (parts : List PartV) : String :=
  joinList "\n" (parts.filterMap PartV.text)

/-- Counterexample to C3 as stated: on the part list
`[{text:"A"}, {}, {text:"B"}]` the code yields `"A\n\nB"` (the part
without a string `text` contributes an empty line), while the claimed
rule — concatenating only the string-valued text parts — yields
`"A\nB"`. -/
theorem extract_parts_c3_counterexample :
    extractTextFromResponse (some c3payload) = .ok ("A\n\nB", none) ∧
    specListExtract c3parts = "A\nB" ∧
    ("A\n\nB" : String) ≠ "A\nB" :=
  ⟨rfl, rfl, by decide⟩

/-- C3 amended: after an HTTP-success status, a payload with no first
choice fails with `EMPTY_RESPONSE`/502; a message content whose
extracted text trims to empty also fails with `EMPTY_RESPONSE`/502 (a
success never carries empty text); and for list-shaped content every
part contributes its `text` when it is a string and the empty string
otherwise, the contributions joined with newlines and trimmed — which
on lists whose parts all carry string-valued `text` coincides with the
newline-concatenation of those texts, e.g.
`[{text:"A"},{text:"B"}]` yields `"A\nB"`. -/
theorem extract_text_c3 :
    (∀ pl : Option UpstreamPayload,
      pl.bind (fun p => p.choices.head?) = none →
      extractTextFromResponse pl =
        .error (.ocr ⟨502, "EMPTY_RESPONSE", "OCR 接口未返回有效内容。", none⟩)) ∧
    (∀ (s : String) (conf : Option Nat) (rest : List ChoiceV) (em m : Option String),
      jsTrim s = "" →
      extractTextFromResponse (some ⟨⟨.str s, conf⟩ :: rest, em, m⟩) =
        .error (.ocr ⟨502, "EMPTY_RESPONSE", "OCR 结果为空，请重试。", none⟩)) ∧
    (∀ (l : List PartV) (conf : Option Nat) (rest : List ChoiceV) (em m : Option String),
      jsTrim (joinList "\n" (l.map (fun part => part.text.getD ""))) = "" →
      extractTextFromResponse (some ⟨⟨.parts l, conf⟩ :: rest, em, m⟩) =
        .error (.ocr ⟨502, "EMPTY_RESPONSE", "OCR 结果为空，请重试。", none⟩)) ∧
    (∀ (l : List PartV) (conf : Option Nat) (rest : List ChoiceV) (em m : Option String),
      jsTrim (joinList "\n" (l.map (fun part => part.text.getD ""))) ≠ "" →
      extractTextFromResponse (some ⟨⟨.parts l, conf⟩ :: rest, em, m⟩) =
        .ok (jsTrim (joinList "\n" (l.map (fun part => part.text.getD ""))), conf)) ∧
    (∀ l : List PartV, (∀ p ∈ l, p.text.isSome) →
      l.map (fun part => part.text.getD "") = l.filterMap PartV.text) ∧
    extractTextFromResponse
        (some ⟨[⟨.parts [⟨some "A"⟩, ⟨some "B"⟩], none⟩], none, none⟩) =
      .ok ("A\nB", none) := by
  refine ⟨?_, ?_, ?_, ?_, ?_, rfl⟩
  · intro pl h
    unfold extractTextFromResponse
    rw [h]
  · intro s conf rest em m h
    unfold extractTextFromResponse
    dsimp only [Option.bind, List.head?]
    rw [if_pos h]
  · intro l conf rest em m h
    unfold extractTextFromResponse
    dsimp only [Option.bind, List.head?]
    rw [if_pos h]
  · intro l conf rest em m h
    unfold extractTextFromResponse
    dsimp only [Option.bind, List.head?]
    rw [if_neg h]
  · intro l h
    induction l with
    | nil => rfl
    | cons p t ih =>
      obtain ⟨v, hv⟩ := Option.isSome_iff_exists.mp (h p (by simp))
      simp only [List.map_cons, List.filterMap_cons, hv, Option.getD_some]
      rw [ih (fun x hx => h x (by simp [hx]))]

/-- Witness for C3's amended claim: the non-empty list-content conjunct
applied at `[{text:"A"},{text:"B"}]`. -/
theorem extract_text_c3_witness :
    extractTextFromResponse
        (some ⟨[⟨.parts [⟨some "A"⟩, ⟨some "B"⟩], none⟩], some "e", some "m"⟩) =
      .ok (jsTrim (joinList "\n"
        (([⟨some "A"⟩, ⟨some "B"⟩] : List PartV).map (fun part => part.text.getD ""))), none) :=
  extract_text_c3.2.2.2.1 [⟨some "A"⟩, ⟨some "B"⟩] none [] (some "e") (some "m")
    (by decide)

theorem getSubstitution_no_dollar (matched pre suf : List Char) :
    ∀ rep : List Char, '$' ∉ rep → getSubstitution matched pre suf rep = rep := by
  intro rep h
  induction rep with
  | nil => rfl
  | cons c rest ih =>
    have hc : c ≠ '$' := by
      intro hcon
      subst hcon
      exact h (List.mem_cons_self _ _)
    cases rest with
    | nil => rfl
    | cons d rest2 =>
      unfold getSubstitution
      rw [if_neg hc, ih (fun hm => h (List.mem_cons_of_mem _ hm))]

theorem replaceFirstAux_no_dollar (pat rep : List Char) (h : '$' ∉ rep) :
    ∀ (l pre : List Char),
      replaceFirstAux pat rep pre l =
        pre.reverse ++ specLiteralReplaceFirstList pat rep l := by
  intro l
  induction l with
  | nil =>
    intro pre
    unfold replaceFirstAux specLiteralReplaceFirstList
    by_cases hp : pat = []
    · rw [if_pos hp, if_pos hp, getSubstitution_no_dollar _ _ _ _ h]
    · rw [if_neg hp, if_neg hp, List.append_nil]
  | cons c rest ih =>
    intro pre
    unfold replaceFirstAux specLiteralReplaceFirstList
    by_cases hp : pat.isPrefixOf (c :: rest) = true
    · rw [if_pos hp, if_pos hp, getSubstitution_no_dollar _ _ _ _ h,
        List.append_assoc]
    · rw [if_neg hp, if_neg hp, ih (c :: pre)]
      simp [List.reverse_cons, List.append_assoc]

/-- On a replacement string containing no `$`, `String.prototype.replace`
substitutes the replacement literally. -/
theorem replaceFirst_no_dollar (s pat rep : String) (h : '$' ∉ rep.data) :
    replaceFirst s pat rep = specLiteralReplaceFirst s pat rep := by
  unfold replaceFirst replaceFirstList specLiteralReplaceFirst
  rw [replaceFirstAux_no_dollar _ _ h]
  rfl

/-- Counterexample to C2 as stated: at `targetText = "$&"` the code's
`String.prototype.replace` re-inserts the matched placeholder, leaving
the template unchanged, whereas replacing the placeholder *by
targetText* would put a literal `$&` there. -/
theorem build_prompt_c2_counterexample :
    buildPrompt (TASK_CONFIGS .text_localization) none (some "$&") =
      .ok "<image>\nLocate <|ref|>\x7b\x7btarget\x7d\x7d<|/ref|> in the image." ∧
    specLiteralReplaceFirst (TASK_CONFIGS .text_localization).defaultPrompt
        "\x7b\x7btarget\x7d\x7d" "$&" =
      "<image>\nLocate <|ref|>$&<|/ref|> in the image." ∧
    ("<image>\nLocate <|ref|>\x7b\x7btarget\x7d\x7d<|/ref|> in the image." : String) ≠
      "<image>\nLocate <|ref|>$&<|/ref|> in the image." :=
  ⟨rfl, rfl, by decide⟩

/-- C2 amended: under the precondition that a target text is supplied
whenever the config requires one, `buildPrompt` returns the config's
default template with the first occurrence of the target placeholder
replaced by the `String.prototype.replace` interpretation of the target
text — its `$$`/`$&`/`$`+U+0060/`$'` patterns substituted, which is the
target text verbatim whenever it contains no `$` — when
`requiresTargetText` is set (the template unchanged otherwise), with a
newline and the custom prompt appended exactly when `allowCustomPrompt`
is set and a custom prompt was supplied; configs that do not allow
custom prompts ignore a supplied one, returning the base template
exactly. -/
theorem build_prompt_c2 :
    (∀ (config : TaskConfig) (customPrompt targetText : Option String),
      (config.requiresTargetText = true → jsFalsy targetText = false) →
      buildPrompt config customPrompt targetText = .ok (
        let base :=
          if config.requiresTargetText then
            replaceFirst config.defaultPrompt "\x7b\x7btarget\x7d\x7d" (targetText.getD "")
          else config.defaultPrompt
        if config.allowCustomPrompt && !jsFalsy customPrompt then
          base ++ "\n" ++ customPrompt.getD ""
        else base)) ∧
    (∀ (s pat rep : String), '$' ∉ rep.data →
      replaceFirst s pat rep = specLiteralReplaceFirst s pat rep) ∧
    (∀ (config : TaskConfig) (customPrompt targetText : Option String),
      config.allowCustomPrompt = false →
      buildPrompt config customPrompt targetText =
        buildPrompt config none targetText) ∧
    buildPrompt (TASK_CONFIGS .text_localization) (some "extra prompt") (some "总计") =
      .ok "<image>\nLocate <|ref|>总计<|/ref|> in the image.\nextra prompt" ∧
    buildPrompt (TASK_CONFIGS .document_markdown) (some "extra prompt") none =
      .ok (TASK_CONFIGS .document_markdown).defaultPrompt := by
  refine ⟨?_, replaceFirst_no_dollar, ?_, rfl, rfl⟩
  · intro config customPrompt targetText h
    unfold buildPrompt
    have hc : (config.requiresTargetText && jsFalsy targetText) = false := by
      cases hr : config.requiresTargetText
      · simp
      · simp [h hr]
    simp only [hc, Bool.false_eq_true, if_false]
    split <;> rfl
  · intro config customPrompt targetText hallow
    unfold buildPrompt
    simp only [hallow, Bool.false_and, Bool.false_eq_true, if_false]

/-- Witness for C2's amended claim at the text-localization config with
a `$`-free target text and a custom prompt. -/
theorem build_prompt_c2_witness :
    buildPrompt (TASK_CONFIGS .text_localization) (some "p") (some "总计") = .ok (
      let base :=
        if (TASK_CONFIGS .text_localization).requiresTargetText then
          replaceFirst (TASK_CONFIGS .text_localization).defaultPrompt
            "\x7b\x7btarget\x7d\x7d" ((some "总计").getD "")
        else (TASK_CONFIGS .text_localization).defaultPrompt
      if (TASK_CONFIGS .text_localization).allowCustomPrompt && !jsFalsy (some "p") then
        base ++ "\n" ++ (some "p").getD ""
      else base) :=
  build_prompt_c2.1 (TASK_CONFIGS .text_localization) (some "p") (some "总计")
    (fun _ => by decide)

set_option maxRecDepth 10000 in
/-- C4: validation fails with `FILE_TOO_LARGE`/413 exactly when the
file's byte size exceeds the configured maximum — default 10,485,760
bytes, with a not-finite (unparsable) or non-positive configured value
falling back to that default, while any finite positive `Number(...)`
result (decimal, fractional, exponent or radix form) is the limit —
independent of the file's MIME type or format, and the error message
reports the limit in whole megabytes
(`Math.round(limit / 1024 / 1024)`). -/
theorem file_too_large_c4 :
    (∀ (f : FileV) (fn : String) (env : Env),
      (getMaxFileSize env.MAX_FILE_SIZE).natLt f.size = true →
      validateFile f fn env = .error (.ocr ⟨413, "FILE_TOO_LARGE",
        sizeLimitMessage (getMaxFileSize env.MAX_FILE_SIZE), none⟩)) ∧
    (∀ (f : FileV) (fn : String) (env : Env),
      (getMaxFileSize env.MAX_FILE_SIZE).natLt f.size = false →
      validateFile f fn env = .ok () ∨
      validateFile f fn env =
        .error (.ocr ⟨400, "UNSUPPORTED_FORMAT", "当前文件格式不受支持。", none⟩)) ∧
    (∀ (k n : Nat), (JsNum.ofNat k).natLt n = true ↔ k < n) ∧
    getMaxFileSize none = JsNum.ofNat 10485760 ∧
    getMaxFileSize (some "") = JsNum.ofNat 10485760 ∧
    (∀ s : String, jsNumber s = none →
      getMaxFileSize (some s) = JsNum.ofNat 10485760) ∧
    (∀ (s : String) (v : JsNum), jsNumber s = some v → v.isPos = false →
      getMaxFileSize (some s) = JsNum.ofNat 10485760) ∧
    (∀ (s : String) (v : JsNum), jsNumber s = some v → v.isPos = true → s ≠ "" →
      getMaxFileSize (some s) = v) ∧
    jsNumber "12.5" = some ⟨125, -1⟩ ∧
    getMaxFileSize (some "12.5") = ⟨125, -1⟩ ∧
    jsNumber "1e6" = some ⟨1, 6⟩ ∧
    getMaxFileSize (some "1e6") = ⟨1, 6⟩ ∧
    jsNumber "0x10" = some ⟨16, 0⟩ ∧
    getMaxFileSize (some "0x10") = ⟨16, 0⟩ ∧
    jsNumber "abc" = none ∧
    jsNumber "-5" = some ⟨-5, 0⟩ ∧
    getMaxFileSize (some "-5") = JsNum.ofNat 10485760 ∧
    jsNumber "Infinity" = none ∧
    jsNumber "1e400" = none ∧
    sizeLimitMessage (JsNum.ofNat 10485760) = "文件大小超出限制（最大 10MB）。" ∧
    mbRound (JsNum.ofNat 10485760) = 10 ∧
    mbRound ⟨1500000, 0⟩ = 1 ∧
    mbRound ⟨125, -1⟩ = 0 := by
  refine ⟨?_, ?_, ?_, rfl, rfl, ?_, ?_, ?_, by decide, by decide, by decide,
    by decide, by decide, by decide, by decide, by decide, by decide, by decide,
    by decide, rfl, by decide, by decide, by decide⟩
  · intro f fn env h
    simp only [validateFile, h, if_true]
  · intro f fn env h
    simp only [validateFile, h, Bool.false_eq_true, if_false]
    by_cases hfmt : isAllowedFormat (parseSupportedFormats env.SUPPORTED_FORMATS)
      (resolveValidationMime f fn) fn = true
    · left
      rw [hfmt]
      rfl
    · right
      rw [Bool.not_eq_true] at hfmt
      rw [hfmt]
      rfl
  · intro k n
    simp [JsNum.natLt, JsNum.toFrac, JsNum.ofNat]
  · intro s h
    simp only [getMaxFileSize]
    rw [h]
    split <;> rfl
  · intro s v h hpos
    simp only [getMaxFileSize]
    rw [h]
    split
    · rfl
    · dsimp only
      rw [hpos]
      rfl
  · intro s v h hpos hs
    simp only [getMaxFileSize]
    rw [if_neg hs, h]
    dsimp only
    rw [hpos]
    rfl

def wEnvLimit : Env := ⟨some "k", none, none, some "100", none⟩

def wBigFile : FileV := ⟨"big.png", "image/png", List.replicate 101 7⟩

set_option maxRecDepth 10000 in
/-- Witness for C4: a 101-byte file against a configured 100-byte
limit fails with `FILE_TOO_LARGE` and status 413. -/
theorem file_too_large_c4_witness :
    validateFile wBigFile "big.png" wEnvLimit = .error (.ocr ⟨413, "FILE_TOO_LARGE",
      sizeLimitMessage (getMaxFileSize wEnvLimit.MAX_FILE_SIZE), none⟩) :=
  file_too_large_c4.1 wBigFile "big.png" wEnvLimit (by decide)

